import Mathlib

/-!
Verification of the Dueling Double DQN agent (`agent.py`).

The batch tensor computations of `DuelingDDQNAgent.learn` are embedded as
functions over lists of rationals: a 1-D tensor is a `List ℚ`, a 2-D tensor of
shape `[batch, n_actions]` is a `List (List ℚ)`, and a network forward pass is
an oracle `Net` mapping an abstract observation identifier to its value head
output and advantage head output (the convolutional arithmetic itself is opaque
to every claim considered here; only the learn-step expression structure built
on top of the two heads matters).

The mutable bookkeeping of the agent (`counter`, `epsilon`, the two parameter
sets, the replay counter) is embedded as a state machine on `AgentState`, with
the optimizer step abstracted as a function `opt` applied to the online
parameters (the code constructs `q1.optimizer` over `q1.parameters()` only).

`memory.py` is not part of the sources; the replay buffer facts used below
(monotone `mem_counter`, occupied size `min mem_counter mem_size`) are modelled
from the spec where noted.
-/

namespace DuelingDDQN

/-- Arithmetic mean of a list of rationals; embeds `tensor.mean(dim=1)` applied
to one row. For the empty list this is `0/0 = 0` in `ℚ`. -/
def listMean (l : List ℚ) : ℚ := l.sum / l.length

/-- Maximum entry of a list of rationals (`0` for the empty list, which never
arises for a network output with at least one action). -/
def maxVal : List ℚ → ℚ
  | [] => 0
  | [x] => x
  | x :: y :: t => max x (maxVal (y :: t))

/-- Index of the first maximal entry; embeds `torch.argmax` on one row (PyTorch
returns the first occurrence among ties). -/
def argmaxIdx (l : List ℚ) : ℕ := l.findIdx (fun x => decide (x = maxVal l))

/-- A dueling network as an oracle: `val` is the scalar value head and `adv`
the advantage head (one rational per action) on an abstract observation
identifier.  Embeds the observable behaviour of `DuelingDQN.forward`, which
returns the pair `(v, a)`. -/
structure Net where
  val : ℕ → ℚ
  adv : ℕ → List ℚ

/-- One row of the combined Q-value: embeds
`torch.add(v, (a - a.mean(dim=1, keepdim=True)))` on a single sample, i.e.
`Q[j] = v + (a[j] - mean(a))`. -/
def rowCombine (v : ℚ) (a : List ℚ) : List ℚ :=
  a.map (fun x => v + (x - listMean a))

/-- Greedy branch of `choose_action`: `torch.argmax(advantages)` on the online
network's advantage output for a single state (`agent.py` lines 90-92). -/
def chooseActionGreedy (net : Net) (s : ℕ) : ℕ := argmaxIdx (net.adv s)

/-- Batched combined Q-value: row `i` combines `v` and `a` of sample `i`;
embeds `torch.add(v, (a - a.mean(dim=1, keepdim=True)))` with `v` of shape
`[batch, 1]` broadcast along the action axis. -/
def qMatrix (net : Net) (xs : List ℕ) : List (List ℚ) :=
  List.zipWith rowCombine (xs.map net.val) (xs.map net.adv)

/-- Fancy indexing `t[ids, idx]` with `ids = arange(batch)`: picks entry
`idx[i]` out of row `i`. Out-of-range reads never occur in the claims below
(guarded by the action-count hypotheses); `getD` defaults to `0`. -/
def indexRows (m : List (List ℚ)) (idx : List ℕ) : List ℚ :=
  List.zipWith (fun row a => row.getD a 0) m idx

/-- Embeds `q_pred = torch.add(v, (a - a.mean(dim=1, keepdim=True)))[ids, actions]`
(`agent.py` lines 118-119): combined online Q at the stored action of each
sampled transition. -/
def q_pred (q1 : Net) (states actions : List ℕ) : List ℚ :=
  indexRows (qMatrix q1 states) actions

/-- Embeds `max_actions = torch.argmax(q_eval, dim=1)` where
`q_eval` is the ONLINE network's combined Q on `next_states`
(`agent.py` lines 122-124). -/
def max_actions (q1 : Net) (ns : List ℕ) : List ℕ :=
  (qMatrix q1 ns).map argmaxIdx

/-- Embeds the in-place row zeroing `q_target[dones] = 0.0` (`agent.py`
line 128): every row whose done flag is set becomes a row of zeros. -/
def zeroRows (m : List (List ℚ)) (dones : List Bool) : List (List ℚ) :=
  List.zipWith (fun row d => if d then List.replicate row.length 0 else row) m dones

/-- Embeds lines 126-129 of `agent.py`: the TARGET network's combined Q on
`next_states`, rows zeroed where done, indexed at the online-chosen
`max_actions`, then `rewards + gamma * ...`. -/
def bootstrapTargets (q1 q2 : Net) (gamma : ℚ) (rewards : List ℚ)
    (ns : List ℕ) (dones : List Bool) : List ℚ :=
  List.zipWith (fun r x => r + gamma * x) rewards
    (indexRows (zeroRows (qMatrix q2 ns) dones) (max_actions q1 ns))

/-- Mutable agent bookkeeping, `DuelingDDQNAgent.__init__` fields.  The two
parameter sets `q1` (online) and `q2` (target) live in an abstract parameter
type `P`; `mem_counter` is the replay buffer's lifetime write counter. -/
structure AgentState (P : Type) where
  gamma : ℚ
  epsilon : ℚ
  eps_min : ℚ
  eps_dec : ℚ
  n_actions : ℕ
  batch_size : ℕ
  replace_target_count : ℕ
  counter : ℕ
  mem_size : ℕ
  mem_counter : ℕ
  q1 : P
  q2 : P

variable {P : Type}

/-- Embeds `update_target_parameters`: hard copy of the online parameters into
the target network (`self.q2.load_state_dict(dict(self.q1.named_parameters()))`). -/
def update_target_parameters (s : AgentState P) : AgentState P :=
  { s with q2 := s.q1 }

/-- Embeds `decrement_epsilon`: `epsilon = max(eps_min, epsilon - eps_dec)`. -/
def decrement_epsilon (s : AgentState P) : AgentState P :=
  { s with epsilon := max s.eps_min (s.epsilon - s.eps_dec) }

/-- Embeds `store_transition`, which delegates to
`ReplayBuffer.store_transition`.  Modelled from the spec: `memory.py` is not in
the sources; spec section 4.2 states the store writes at
`mem_counter mod capacity`, increments `mem_counter` and always succeeds.  Only
the counter matters to the claims below. -/
def store_transition (s : AgentState P) : AgentState P :=
  { s with mem_counter := s.mem_counter + 1 }

/-- Occupied size of the replay buffer.  Modelled from the spec:
`memory.py` is not in the sources; spec section 3 states the invariant that the
logical occupied size is `min(mem_counter, mem_size)`. -/
def occupied (s : AgentState P) : ℕ := min s.mem_counter s.mem_size

/-- State effect of `learn` (`agent.py` lines 99-137): early return when
`mem_counter < batch_size`; hard target sync when
`counter % replace_target_count == 0`; one optimizer step on the online
parameters only (the optimizer is built over `q1.parameters()`); then
`counter += 1` and `decrement_epsilon()`.  The sampled batch and loss value do
not feed back into this bookkeeping, so the optimizer step is abstracted as
`opt` applied to the online parameters. -/
def learn (opt : P → P) (s : AgentState P) : AgentState P :=
  if s.mem_counter < s.batch_size then s
  else
    let s1 := if s.counter % s.replace_target_count = 0 then update_target_parameters s else s
    let s2 := { s1 with q1 := opt s1.q1 }
    decrement_epsilon { s2 with counter := s2.counter + 1 }

/-- Constructor configuration of `DuelingDDQNAgent.__init__` (the arguments
that parameterize the bookkeeping; capacities are naturals, mirroring
`int(mem_size)`). -/
structure Config where
  gamma : ℚ
  eps_min : ℚ
  eps_dec : ℚ
  n_actions : ℕ
  batch_size : ℕ
  mem_size : ℕ
  replace_target_count : ℕ

/-- Embeds `DuelingDDQNAgent.__init__` (`agent.py` lines 62-86): straight-line
field assignments, `epsilon = 1.0`, `counter = 0`, a fresh buffer
(`mem_counter = 0`), and the two networks; there is no validation of any
argument. -/
def DuelingDDQNAgent_init (cfg : Config) (net1 net2 : P) : AgentState P :=
  { gamma := cfg.gamma
    epsilon := 1
    eps_min := cfg.eps_min
    eps_dec := cfg.eps_dec
    n_actions := cfg.n_actions
    batch_size := cfg.batch_size
    replace_target_count := cfg.replace_target_count
    counter := 0
    mem_size := cfg.mem_size
    mem_counter := 0
    q1 := net1
    q2 := net2 }

/- ## Helper lemmas on the list model -/

theorem findIdx_map (p : β → Bool) (f : α → β) :
    ∀ l : List α, (l.map f).findIdx p = l.findIdx (fun x => p (f x))
  | [] => rfl
  | x :: t => by
    simp only [List.map_cons, List.findIdx_cons]
    cases p (f x) <;> simp [findIdx_map p f t]

theorem maxVal_map_add :
    ∀ (l : List ℚ) (c : ℚ), l ≠ [] → maxVal (l.map (fun x => x + c)) = maxVal l + c
  | [], _, h => absurd rfl h
  | [x], c, _ => by simp [maxVal]
  | x :: y :: t, c, _ => by
    have ih := maxVal_map_add (y :: t) c (by simp)
    simp only [List.map_cons] at ih ⊢
    rw [maxVal, maxVal, ih, max_add_add_right]

theorem argmaxIdx_map_add (l : List ℚ) (c : ℚ) :
    argmaxIdx (l.map (fun x => x + c)) = argmaxIdx l := by
  cases l with
  | nil => simp [argmaxIdx]
  | cons x t =>
    unfold argmaxIdx
    rw [maxVal_map_add (x :: t) c (by simp), findIdx_map]
    have hp : (fun y : ℚ => decide (y + c = maxVal (x :: t) + c))
        = (fun y : ℚ => decide (y = maxVal (x :: t))) := by
      funext y; simp
    rw [hp]

theorem rowCombine_eq_map_add (v : ℚ) (a : List ℚ) :
    rowCombine v a = a.map (fun x => x + (v - listMean a)) := by
  unfold rowCombine
  exact List.map_congr_left (fun x _ => by ring)

theorem qMatrix_getElem? (net : Net) (ns : List ℕ) (i t : ℕ) (ht : ns[i]? = some t) :
    (qMatrix net ns)[i]? = some (rowCombine (net.val t) (net.adv t)) := by
  unfold qMatrix
  rw [List.getElem?_zipWith]
  simp [List.getElem?_map, ht]

theorem getD_replicate_zero : ∀ (n i : ℕ), (List.replicate n (0 : ℚ)).getD i 0 = 0 := by
  intro n i
  rw [List.getD_eq_getElem?_getD, List.getElem?_replicate]
  split <;> rfl

/- ## C4 -/

/-- C4: for every scalar value `v` and advantage vector `a`, the argmax of the
combined Q-row `v + (a[j] - mean(a))` equals the argmax of the raw advantage
vector, because the combination shifts every entry by the same constant
`v - mean(a)`; consequently `choose_action`'s greedy branch (argmax over raw
advantages) selects exactly the action an argmax over the combined Q-row would
select. -/
theorem argmax_combined_eq_argmax_advantages :
    (∀ (v : ℚ) (a : List ℚ), argmaxIdx (rowCombine v a) = argmaxIdx a) ∧
    (∀ (net : Net) (s : ℕ),
      chooseActionGreedy net s = argmaxIdx (rowCombine (net.val s) (net.adv s))) := by
  have h : ∀ (v : ℚ) (a : List ℚ), argmaxIdx (rowCombine v a) = argmaxIdx a := by
    intro v a
    rw [rowCombine_eq_map_add, argmaxIdx_map_add]
  exact ⟨h, fun net s => by rw [h]; rfl⟩

/- ## C1 -/

/-- C1: for every sampled batch and every in-range sample `i`, the action index
computed at line 124 is the argmax of the ONLINE network's combined Q-row on
the sample's next state, and (for a non-terminal sample) the bootstrapped value
is the TARGET network's combined Q-row indexed at exactly that online-chosen
index — the index appearing in the target expression is by construction the
online argmax, never the target network's own argmax. -/
theorem learn_double_q_uses_online_argmax
    (q1 q2 : Net) (gamma : ℚ) (rewards : List ℚ) (ns : List ℕ) (dones : List Bool)
    (i t : ℕ) (r : ℚ)
    (ht : ns[i]? = some t) (hr : rewards[i]? = some r) (hd : dones[i]? = some false) :
    (max_actions q1 ns)[i]? = some (argmaxIdx (rowCombine (q1.val t) (q1.adv t))) ∧
    (bootstrapTargets q1 q2 gamma rewards ns dones)[i]? =
      some (r + gamma * (rowCombine (q2.val t) (q2.adv t)).getD
        (argmaxIdx (rowCombine (q1.val t) (q1.adv t))) 0) := by
  have hq1 := qMatrix_getElem? q1 ns i t ht
  have hq2 := qMatrix_getElem? q2 ns i t ht
  have hmax : (max_actions q1 ns)[i]? =
      some (argmaxIdx (rowCombine (q1.val t) (q1.adv t))) := by
    unfold max_actions
    rw [List.getElem?_map, hq1]
    rfl
  refine ⟨hmax, ?_⟩
  have hz : (zeroRows (qMatrix q2 ns) dones)[i]? =
      some (rowCombine (q2.val t) (q2.adv t)) := by
    unfold zeroRows
    rw [List.getElem?_zipWith]
    simp [hq2, hd]
  have hidx : (indexRows (zeroRows (qMatrix q2 ns) dones) (max_actions q1 ns))[i]? =
      some ((rowCombine (q2.val t) (q2.adv t)).getD
        (argmaxIdx (rowCombine (q1.val t) (q1.adv t))) 0) := by
    unfold indexRows
    rw [List.getElem?_zipWith]
    simp [hz, hmax]
  unfold bootstrapTargets
  rw [List.getElem?_zipWith]
  simp [hr, hidx]

/-- Concrete online network for the witnesses: argmax action 1. -/
def wNet1 : Net := ⟨fun _ => 1, fun _ => [0, 2]⟩

/-- Concrete target network for the witnesses: its own argmax action is 0,
distinct from the online network's choice. -/
def wNet2 : Net := ⟨fun _ => 0, fun _ => [5, 1]⟩

/-- C1 witness: one-sample batch on which the online and target networks
disagree about the best next action; the theorem applies and the online choice
(action 1) is the one indexing the target row. -/
theorem learn_double_q_uses_online_argmax_witness :
    (argmaxIdx (rowCombine (wNet1.val 7) (wNet1.adv 7)) = 1 ∧
      argmaxIdx (rowCombine (wNet2.val 7) (wNet2.adv 7)) = 0) ∧
    ((max_actions wNet1 [7])[0]? = some (argmaxIdx (rowCombine (wNet1.val 7) (wNet1.adv 7))) ∧
      (bootstrapTargets wNet1 wNet2 (99/100) [3] [7] [false])[0]? =
        some (3 + 99/100 * (rowCombine (wNet2.val 7) (wNet2.adv 7)).getD
          (argmaxIdx (rowCombine (wNet1.val 7) (wNet1.adv 7))) 0)) :=
  ⟨by norm_num [argmaxIdx, rowCombine, maxVal, listMean, List.findIdx_cons, wNet1, wNet2],
   learn_double_q_uses_online_argmax wNet1 wNet2 (99/100) [3] [7] [false] 0 7 3 rfl rfl rfl⟩

/- ## C2 -/

theorem bootstrapTargets_length (q1 q2 : Net) (gamma : ℚ) (rewards : List ℚ)
    (ns : List ℕ) (dones : List Bool)
    (hlr : rewards.length = ns.length) (hld : dones.length = ns.length) :
    (bootstrapTargets q1 q2 gamma rewards ns dones).length = ns.length := by
  simp [bootstrapTargets, indexRows, zeroRows, qMatrix, max_actions, hlr, hld]

/-- C2: for every sample of a batch, the bootstrapped regression target is
`reward + gamma * q_target_value`, where `q_target_value` is zeroed exactly
when the sample's done flag is set (otherwise it is the target network's
combined Q at the online-chosen index); and for a batch whose done flags are
all true the whole target vector equals the raw reward vector. -/
theorem learn_terminal_targets_equal_rewards
    (q1 q2 : Net) (gamma : ℚ) (rewards : List ℚ) (ns : List ℕ) (dones : List Bool)
    (hlr : rewards.length = ns.length) (hld : dones.length = ns.length) :
    (∀ (i t : ℕ) (r : ℚ) (d : Bool), ns[i]? = some t → rewards[i]? = some r →
      dones[i]? = some d →
      (bootstrapTargets q1 q2 gamma rewards ns dones)[i]? =
        some (r + gamma * (if d then 0 else (rowCombine (q2.val t) (q2.adv t)).getD
          (argmaxIdx (rowCombine (q1.val t) (q1.adv t))) 0))) ∧
    ((∀ x ∈ dones, x = true) →
      bootstrapTargets q1 q2 gamma rewards ns dones = rewards) := by
  have hpart1 : ∀ (i t : ℕ) (r : ℚ) (d : Bool), ns[i]? = some t → rewards[i]? = some r →
      dones[i]? = some d →
      (bootstrapTargets q1 q2 gamma rewards ns dones)[i]? =
        some (r + gamma * (if d then 0 else (rowCombine (q2.val t) (q2.adv t)).getD
          (argmaxIdx (rowCombine (q1.val t) (q1.adv t))) 0)) := by
    intro i t r d ht hr hd
    have hq1 := qMatrix_getElem? q1 ns i t ht
    have hq2 := qMatrix_getElem? q2 ns i t ht
    have hmax : (max_actions q1 ns)[i]? =
        some (argmaxIdx (rowCombine (q1.val t) (q1.adv t))) := by
      unfold max_actions
      rw [List.getElem?_map, hq1]
      rfl
    have hz : (zeroRows (qMatrix q2 ns) dones)[i]? =
        some (if d then List.replicate (rowCombine (q2.val t) (q2.adv t)).length 0
          else rowCombine (q2.val t) (q2.adv t)) := by
      unfold zeroRows
      rw [List.getElem?_zipWith]
      simp [hq2, hd]
    have hidx : (indexRows (zeroRows (qMatrix q2 ns) dones) (max_actions q1 ns))[i]? =
        some (if d then 0 else (rowCombine (q2.val t) (q2.adv t)).getD
          (argmaxIdx (rowCombine (q1.val t) (q1.adv t))) 0) := by
      unfold indexRows
      rw [List.getElem?_zipWith, hz, hmax]
      cases d <;> simp [getD_replicate_zero]
    unfold bootstrapTargets
    rw [List.getElem?_zipWith, hr, hidx]
  refine ⟨hpart1, ?_⟩
  intro hall
  apply List.ext_getElem?
  intro j
  by_cases hj : j < ns.length
  · have ht : ns[j]? = some ns[j] := List.getElem?_eq_getElem hj
    have hjr : j < rewards.length := by rw [hlr]; exact hj
    have hjd : j < dones.length := by rw [hld]; exact hj
    have hr : rewards[j]? = some rewards[j] := List.getElem?_eq_getElem hjr
    have hd : dones[j]? = some true := by
      rw [List.getElem?_eq_getElem hjd]
      exact congrArg some (hall _ (List.getElem_mem hjd))
    rw [hpart1 j ns[j] rewards[j] true ht hr hd, hr]
    simp
  · have h1 : (bootstrapTargets q1 q2 gamma rewards ns dones)[j]? = none := by
      apply List.getElem?_eq_none
      rw [bootstrapTargets_length q1 q2 gamma rewards ns dones hlr hld]
      omega
    have h2 : rewards[j]? = none := by
      apply List.getElem?_eq_none
      omega
    rw [h1, h2]

/-- C2 witness: a two-sample batch with both done flags true; the per-sample
form holds and the target vector collapses to the raw rewards. -/
theorem learn_terminal_targets_equal_rewards_witness :
    ((∀ (i t : ℕ) (r : ℚ) (d : Bool), [4, 9][i]? = some t → [3, -2][i]? = some r →
      [true, true][i]? = some d →
      (bootstrapTargets wNet1 wNet2 (99/100) [3, -2] [4, 9] [true, true])[i]? =
        some (r + 99/100 * (if d then 0 else (rowCombine (wNet2.val t) (wNet2.adv t)).getD
          (argmaxIdx (rowCombine (wNet1.val t) (wNet1.adv t))) 0))) ∧
    ((∀ x ∈ [true, true], x = true) →
      bootstrapTargets wNet1 wNet2 (99/100) [3, -2] [4, 9] [true, true] = [3, -2])) ∧
    bootstrapTargets wNet1 wNet2 (99/100) [3, -2] [4, 9] [true, true] = [3, -2] := by
  have h := learn_terminal_targets_equal_rewards wNet1 wNet2 (99/100) [3, -2] [4, 9]
    [true, true] rfl rfl
  exact ⟨h, h.2 (by decide)⟩

/- ## C3 -/

/-- C3: for every in-range sample, `q_pred` is the online network's combined
Q-estimate `value + (advantages[a] - mean(advantages))` on the sample's state
at the action actually stored in the transition (not an argmax), the mean being
over that sample's advantage vector. -/
theorem q_pred_at_taken_action
    (q1 : Net) (states actions : List ℕ) (i t act : ℕ)
    (hs : states[i]? = some t) (ha : actions[i]? = some act)
    (hact : act < (q1.adv t).length) :
    (q_pred q1 states actions)[i]? =
      some (q1.val t + ((q1.adv t).getD act 0 - listMean (q1.adv t))) := by
  have hq := qMatrix_getElem? q1 states i t hs
  unfold q_pred indexRows
  rw [List.getElem?_zipWith, hq, ha]
  have hrow : (rowCombine (q1.val t) (q1.adv t)).getD act 0 =
      q1.val t + ((q1.adv t).getD act 0 - listMean (q1.adv t)) := by
    unfold rowCombine
    rw [List.getD_eq_getElem?_getD, List.getElem?_map,
      List.getElem?_eq_getElem hact, List.getD_eq_getElem?_getD,
      List.getElem?_eq_getElem hact]
    rfl
  exact congrArg some hrow

/-- C3 witness: a transition whose stored action (0) is not the greedy one (1);
`q_pred` evaluates the combined Q at the stored action. -/
theorem q_pred_at_taken_action_witness :
    (0 < (wNet1.adv 4).length ∧ argmaxIdx (wNet1.adv 4) ≠ 0) ∧
    (q_pred wNet1 [4] [0])[0]? =
      some (wNet1.val 4 + ((wNet1.adv 4).getD 0 0 - listMean (wNet1.adv 4))) :=
  ⟨by decide, q_pred_at_taken_action wNet1 [4] [0] 0 4 0 rfl rfl (by decide)⟩

/- ## State-machine helper lemmas -/

theorem learn_guard_stop (opt : P → P) (s : AgentState P)
    (h : s.mem_counter < s.batch_size) : learn opt s = s := by
  simp [learn, h]

theorem learn_fields (opt : P → P) (s : AgentState P)
    (h : ¬ s.mem_counter < s.batch_size) :
    learn opt s = { s with
      counter := s.counter + 1
      epsilon := max s.eps_min (s.epsilon - s.eps_dec)
      q1 := opt s.q1
      q2 := if s.counter % s.replace_target_count = 0 then s.q1 else s.q2 } := by
  by_cases hc : s.counter % s.replace_target_count = 0
  · simp [learn, update_target_parameters, decrement_epsilon, h, hc]
  · simp [learn, update_target_parameters, decrement_epsilon, h, hc]

theorem learn_iterate_fields (opt : P → P) (s : AgentState P)
    (hguard : s.batch_size ≤ s.mem_counter) :
    ∀ k : ℕ,
      ((learn opt)^[k] s).counter = s.counter + k ∧
      ((learn opt)^[k] s).mem_counter = s.mem_counter ∧
      ((learn opt)^[k] s).batch_size = s.batch_size ∧
      ((learn opt)^[k] s).replace_target_count = s.replace_target_count ∧
      ((learn opt)^[k] s).eps_min = s.eps_min ∧
      ((learn opt)^[k] s).eps_dec = s.eps_dec
  | 0 => by simp
  | (k + 1) => by
    have ih := learn_iterate_fields opt s hguard k
    rw [Function.iterate_succ_apply']
    have hg : ¬ ((learn opt)^[k] s).mem_counter < ((learn opt)^[k] s).batch_size := by
      rw [ih.2.1, ih.2.2.1]
      omega
    rw [learn_fields opt _ hg]
    refine ⟨?_, ih.2.1, ih.2.2.1, ih.2.2.2.1, ih.2.2.2.2.1, ih.2.2.2.2.2⟩
    show ((learn opt)^[k] s).counter + 1 = s.counter + (k + 1)
    rw [ih.1]
    omega

theorem learn_iterate_q2_frozen (opt : P → P) (s : AgentState P)
    (hguard : s.batch_size ≤ s.mem_counter) :
    ∀ k : ℕ, (∀ j < k, (s.counter + j) % s.replace_target_count ≠ 0) →
      ((learn opt)^[k] s).q2 = s.q2
  | 0, _ => by simp
  | (k + 1), hall => by
    have ih := learn_iterate_q2_frozen opt s hguard k (fun j hj => hall j (by omega))
    have hf := learn_iterate_fields opt s hguard k
    rw [Function.iterate_succ_apply']
    have hg : ¬ ((learn opt)^[k] s).mem_counter < ((learn opt)^[k] s).batch_size := by
      rw [hf.2.1, hf.2.2.1]
      omega
    rw [learn_fields opt _ hg]
    show (if ((learn opt)^[k] s).counter % ((learn opt)^[k] s).replace_target_count = 0
      then ((learn opt)^[k] s).q1 else ((learn opt)^[k] s).q2) = s.q2
    rw [hf.1, hf.2.2.2.1, if_neg (hall k (Nat.lt_succ_self k))]
    exact ih

theorem learn_iterate_epsilon (opt : P → P) (s : AgentState P)
    (hguard : s.batch_size ≤ s.mem_counter) (hdec : 0 ≤ s.eps_dec)
    (hmin : s.eps_min ≤ s.epsilon) :
    ∀ n : ℕ, ((learn opt)^[n] s).epsilon = max s.eps_min (s.epsilon - (n : ℚ) * s.eps_dec)
  | 0 => by simpa using (max_eq_right hmin).symm
  | (n + 1) => by
    have ih := learn_iterate_epsilon opt s hguard hdec hmin n
    have hf := learn_iterate_fields opt s hguard n
    rw [Function.iterate_succ_apply']
    have hg : ¬ ((learn opt)^[n] s).mem_counter < ((learn opt)^[n] s).batch_size := by
      rw [hf.2.1, hf.2.2.1]
      omega
    rw [learn_fields opt _ hg]
    show max ((learn opt)^[n] s).eps_min (((learn opt)^[n] s).epsilon - ((learn opt)^[n] s).eps_dec)
      = max s.eps_min (s.epsilon - ((n + 1 : ℕ) : ℚ) * s.eps_dec)
    rw [hf.2.2.2.2.1, hf.2.2.2.2.2, ih, ← max_sub_sub_right, ← max_assoc,
      max_eq_left (sub_le_self s.eps_min hdec)]
    congr 1
    push_cast
    ring

/- ## C5 -/

/-- C5: when a learning step runs (buffer past warmup), the target parameters
are hard-copied from the online parameters exactly when
`counter % replace_target_count = 0` and are left untouched otherwise; across
any run of up to `replace_target_count - 1` consecutive learning steps none of
which starts at a sync boundary the target parameters are unchanged (the
optimizer only ever maps the online parameters); and immediately after the
hard-copy operation the target parameters equal the online parameters. -/
theorem target_sync_protocol (opt : P → P) (s : AgentState P) (k : ℕ)
    (hguard : s.batch_size ≤ s.mem_counter)
    (_hk : k < s.replace_target_count) :
    ((s.counter % s.replace_target_count = 0 → (learn opt s).q2 = s.q1) ∧
      (s.counter % s.replace_target_count ≠ 0 → (learn opt s).q2 = s.q2)) ∧
    ((∀ j < k, (s.counter + j) % s.replace_target_count ≠ 0) →
      ((learn opt)^[k] s).q2 = s.q2) ∧
    (update_target_parameters s).q2 = (update_target_parameters s).q1 := by
  have hg : ¬ s.mem_counter < s.batch_size := by omega
  refine ⟨⟨?_, ?_⟩, learn_iterate_q2_frozen opt s hguard k, rfl⟩
  · intro hc
    rw [learn_fields opt s hg]
    show (if s.counter % s.replace_target_count = 0 then s.q1 else s.q2) = s.q1
    rw [if_pos hc]
  · intro hc
    rw [learn_fields opt s hg]
    show (if s.counter % s.replace_target_count = 0 then s.q1 else s.q2) = s.q2
    rw [if_neg hc]

/-- Concrete agent state for the target-sync witness: counter 1, sync interval
10, online parameters 5, target parameters 7, replay buffer past warmup. -/
def wSync : AgentState ℕ :=
  { gamma := 99/100, epsilon := 1, eps_min := 1/10, eps_dec := 0,
    n_actions := 2, batch_size := 2, replace_target_count := 10,
    counter := 1, mem_size := 50, mem_counter := 4, q1 := 5, q2 := 7 }

/-- C5 witness: nine consecutive learning steps from counter 1 never cross the
boundary `counter % 10 = 0`, and the target parameters stay at their value 7
even though the optimizer (`Nat.succ`) moves the online parameters each step. -/
theorem target_sync_protocol_witness :
    (((wSync.counter % wSync.replace_target_count = 0 →
        (learn Nat.succ wSync).q2 = wSync.q1) ∧
      (wSync.counter % wSync.replace_target_count ≠ 0 →
        (learn Nat.succ wSync).q2 = wSync.q2)) ∧
     ((∀ j < 9, (wSync.counter + j) % wSync.replace_target_count ≠ 0) →
        ((learn Nat.succ)^[9] wSync).q2 = wSync.q2) ∧
     (update_target_parameters wSync).q2 = (update_target_parameters wSync).q1) ∧
    ((learn Nat.succ)^[9] wSync).q2 = 7 :=
  have h := target_sync_protocol Nat.succ wSync 9 (by decide) (by decide)
  ⟨h, by rw [h.2.1 (by decide)]; rfl⟩

/- ## C6 -/

/-- C6: starting from `epsilon = 1`, epsilon is reduced exactly once per
completed learning step by `epsilon = max(eps_min, epsilon - eps_dec)`; after
`n` learning steps it equals `max(eps_min, 1 - n * eps_dec)`, it is
monotonically non-increasing in `n`, and it never drops below the floor
`eps_min` (hypotheses: non-negative decay and a floor not above the start
value, as for every valid configuration). -/
theorem epsilon_decay_schedule (opt : P → P) (s : AgentState P) (n : ℕ)
    (heps : s.epsilon = 1) (hdec : 0 ≤ s.eps_dec) (hmin : s.eps_min ≤ 1)
    (hguard : s.batch_size ≤ s.mem_counter) :
    ((learn opt)^[n] s).epsilon = max s.eps_min (1 - (n : ℚ) * s.eps_dec) ∧
    ((learn opt)^[n + 1] s).epsilon ≤ ((learn opt)^[n] s).epsilon ∧
    s.eps_min ≤ ((learn opt)^[n] s).epsilon := by
  have hmin' : s.eps_min ≤ s.epsilon := by rw [heps]; exact hmin
  have hcf := learn_iterate_epsilon opt s hguard hdec hmin'
  refine ⟨by rw [hcf n, heps], ?_, by rw [hcf n]; exact le_max_left _ _⟩
  rw [hcf (n + 1), hcf n]
  apply max_le_max le_rfl
  apply sub_le_sub_left
  apply mul_le_mul_of_nonneg_right _ hdec
  push_cast
  linarith

/-- Concrete agent state for the epsilon witness: `epsilon = 1`, floor `1/4`,
decay `1/2`, buffer past warmup. -/
def wEps : AgentState ℕ :=
  { gamma := 99/100, epsilon := 1, eps_min := 1/4, eps_dec := 1/2,
    n_actions := 2, batch_size := 1, replace_target_count := 10,
    counter := 0, mem_size := 5, mem_counter := 3, q1 := 0, q2 := 0 }

/-- C6 witness: after three learning steps with decay `1/2` the unclamped value
would be `-1/2`, and epsilon sits exactly at the floor `1/4`. -/
theorem epsilon_decay_schedule_witness :
    (((learn (fun p : ℕ => p))^[3] wEps).epsilon
        = max wEps.eps_min (1 - (3 : ℚ) * wEps.eps_dec) ∧
      ((learn (fun p : ℕ => p))^[3 + 1] wEps).epsilon
        ≤ ((learn (fun p : ℕ => p))^[3] wEps).epsilon ∧
      wEps.eps_min ≤ ((learn (fun p : ℕ => p))^[3] wEps).epsilon) ∧
    max wEps.eps_min (1 - (3 : ℚ) * wEps.eps_dec) = 1/4 :=
  ⟨epsilon_decay_schedule (fun p => p) wEps 3 rfl (by norm_num [wEps])
      (by norm_num [wEps]) (by norm_num [wEps]),
    by norm_num [wEps]⟩

/- ## C8 -/

/-- Concrete agent state violating the claim: capacity 2 but batch size 3, with
3 lifetime stores, so the occupied size is `min 3 2 = 2 < 3` while the code's
guard `mem_counter < batch_size` is `3 < 3`, i.e. false. -/
def wOver : AgentState ℕ :=
  { gamma := 99/100, epsilon := 1, eps_min := 1/10, eps_dec := 0,
    n_actions := 2, batch_size := 3, replace_target_count := 10,
    counter := 0, mem_size := 2, mem_counter := 3, q1 := 0, q2 := 0 }

/-- C8 counterexample: an agent state whose occupied buffer size (2) is below
`batch_size` (3), yet `learn` is not a no-op — it runs a full learning step and
increments `counter` — because the code's guard compares the lifetime counter
`mem_counter` (3), not the occupied size. -/
theorem learn_noop_claim_counterexample :
    occupied wOver < wOver.batch_size ∧ (learn id wOver).counter ≠ wOver.counter := by
  constructor
  · decide
  · rw [learn_fields id wOver (by decide)]
    decide

/-- C8 amended: for a configuration with `batch_size ≤ mem_size` (every valid
configuration; equivalently, whenever the guard's lifetime counter agrees with
the occupied size on the warmup question), an occupied size below `batch_size`
makes `learn` return immediately with the entire agent state unchanged. -/
theorem learn_noop_below_batch_size (opt : P → P) (s : AgentState P)
    (hvalid : s.batch_size ≤ s.mem_size) (h : occupied s < s.batch_size) :
    learn opt s = s := by
  apply learn_guard_stop
  unfold occupied at h
  omega

/-- Concrete under-filled agent state for the C8 witness: capacity 10,
batch size 4, two stores so far. -/
def wUnder : AgentState ℕ :=
  { gamma := 99/100, epsilon := 1, eps_min := 1/10, eps_dec := 0,
    n_actions := 2, batch_size := 4, replace_target_count := 10,
    counter := 0, mem_size := 10, mem_counter := 2, q1 := 5, q2 := 7 }

/-- C8 amended witness: with 2 of 4 required transitions stored, `learn` is the
identity on the agent state. -/
theorem learn_noop_below_batch_size_witness : learn Nat.succ wUnder = wUnder :=
  learn_noop_below_batch_size Nat.succ wUnder (by decide) (by decide)

/- ## C9 -/

/-- Invalid configuration: zero replay capacity, batch size 5 exceeding the
capacity, and an exploration floor of 2, outside `[0, 1]`. -/
def badConfig : Config :=
  { gamma := 99/100, eps_min := 2, eps_dec := 1/2,
    n_actions := 2, batch_size := 5, mem_size := 0, replace_target_count := 10 }

/-- C9 counterexample: `badConfig` violates all three validity conditions of
the claim, yet construction is not rejected — `DuelingDDQNAgent.__init__` is a
straight-line sequence of assignments with no validation, so it completes
normally and stores the invalid values verbatim. -/
theorem init_accepts_invalid_config_counterexample :
    (badConfig.mem_size = 0 ∧ badConfig.mem_size < badConfig.batch_size ∧
      ¬ badConfig.eps_min ≤ 1) ∧
    DuelingDDQNAgent_init badConfig 0 0 =
      ({ gamma := 99/100, epsilon := 1, eps_min := 2, eps_dec := 1/2,
         n_actions := 2, batch_size := 5, replace_target_count := 10,
         counter := 0, mem_size := 0, mem_counter := 0,
         q1 := 0, q2 := 0 } : AgentState ℕ) :=
  ⟨⟨rfl, by norm_num [badConfig], by norm_num [badConfig]⟩, rfl⟩

/-- C9 amended: construction performs no configuration validation at all —
for every configuration, valid or not, `DuelingDDQNAgent.__init__` succeeds and
produces the freshly initialized agent state (`epsilon = 1`, `counter = 0`,
empty buffer) with every configuration field stored verbatim; rejection of a
bad configuration is deferred to whatever later operation it breaks. -/
theorem init_never_validates (cfg : Config) (net1 net2 : P) :
    (DuelingDDQNAgent_init cfg net1 net2).epsilon = 1 ∧
    (DuelingDDQNAgent_init cfg net1 net2).counter = 0 ∧
    (DuelingDDQNAgent_init cfg net1 net2).mem_counter = 0 ∧
    (DuelingDDQNAgent_init cfg net1 net2).gamma = cfg.gamma ∧
    (DuelingDDQNAgent_init cfg net1 net2).eps_min = cfg.eps_min ∧
    (DuelingDDQNAgent_init cfg net1 net2).eps_dec = cfg.eps_dec ∧
    (DuelingDDQNAgent_init cfg net1 net2).n_actions = cfg.n_actions ∧
    (DuelingDDQNAgent_init cfg net1 net2).batch_size = cfg.batch_size ∧
    (DuelingDDQNAgent_init cfg net1 net2).mem_size = cfg.mem_size ∧
    (DuelingDDQNAgent_init cfg net1 net2).replace_target_count = cfg.replace_target_count ∧
    (DuelingDDQNAgent_init cfg net1 net2).q1 = net1 ∧
    (DuelingDDQNAgent_init cfg net1 net2).q2 = net2 :=
  ⟨rfl, rfl, rfl, rfl, rfl, rfl, rfl, rfl, rfl, rfl, rfl, rfl⟩

/- ## C10 -/

theorem store_transition_iterate (s : AgentState P) :
    ∀ k : ℕ, store_transition^[k] s = { s with mem_counter := s.mem_counter + k }
  | 0 => by simp
  | (k + 1) => by
    rw [Function.iterate_succ_apply', store_transition_iterate s k]
    rfl

/-- C10: the warmup guard of `learn` compares the lifetime store count
`mem_counter`, not the occupied size `min mem_counter mem_size`: for an agent
constructed with `batch_size > mem_size`, after `batch_size` stores the guard
no longer stops `learn` — a full learning step runs (the counter advances past
the guard to the sampling call) — even though the occupied buffer size is still
below `batch_size` (and can never reach it), so `sample` is reached with its
precondition `occupied ≥ batch_size` violated instead of `learn` staying a
permanent no-op. -/
theorem warmup_guard_uses_lifetime_counter (cfg : Config) (net1 net2 : P) (opt : P → P)
    (hover : cfg.mem_size < cfg.batch_size) :
    ¬ (store_transition^[cfg.batch_size] (DuelingDDQNAgent_init cfg net1 net2)).mem_counter
        < (store_transition^[cfg.batch_size] (DuelingDDQNAgent_init cfg net1 net2)).batch_size ∧
    occupied (store_transition^[cfg.batch_size] (DuelingDDQNAgent_init cfg net1 net2))
        < (store_transition^[cfg.batch_size] (DuelingDDQNAgent_init cfg net1 net2)).batch_size ∧
    (learn opt (store_transition^[cfg.batch_size] (DuelingDDQNAgent_init cfg net1 net2))).counter
        = (store_transition^[cfg.batch_size] (DuelingDDQNAgent_init cfg net1 net2)).counter + 1 := by
  have hinit : store_transition^[cfg.batch_size] (DuelingDDQNAgent_init cfg net1 net2)
      = { DuelingDDQNAgent_init cfg net1 net2 with mem_counter := cfg.batch_size } := by
    rw [store_transition_iterate]
    show ({ DuelingDDQNAgent_init cfg net1 net2 with mem_counter := 0 + cfg.batch_size }
      : AgentState P) = _
    rw [Nat.zero_add]
  rw [hinit]
  have hg : ¬ ({ DuelingDDQNAgent_init cfg net1 net2 with mem_counter := cfg.batch_size }
      : AgentState P).mem_counter
      < ({ DuelingDDQNAgent_init cfg net1 net2 with mem_counter := cfg.batch_size }
      : AgentState P).batch_size := by
    show ¬ cfg.batch_size < cfg.batch_size
    omega
  refine ⟨hg, ?_, ?_⟩
  · show min cfg.batch_size cfg.mem_size < cfg.batch_size
    omega
  · rw [learn_fields _ _ hg]

/-- Configuration with `batch_size` (3) exceeding the replay capacity (2), for
the C10 witness. -/
def wOverConfig : Config :=
  { gamma := 99/100, eps_min := 1/10, eps_dec := 0,
    n_actions := 2, batch_size := 3, mem_size := 2, replace_target_count := 10 }

/-- C10 witness: capacity 2, batch size 3; after three stores the lifetime
counter is 3, the guard `3 < 3` fails to stop `learn`, a learning step runs,
yet only `min 3 2 = 2` transitions are actually held. -/
theorem warmup_guard_uses_lifetime_counter_witness :
    ¬ (store_transition^[wOverConfig.batch_size]
          (DuelingDDQNAgent_init wOverConfig 5 7)).mem_counter
        < (store_transition^[wOverConfig.batch_size]
          (DuelingDDQNAgent_init wOverConfig 5 7)).batch_size ∧
    occupied (store_transition^[wOverConfig.batch_size] (DuelingDDQNAgent_init wOverConfig 5 7))
        < (store_transition^[wOverConfig.batch_size]
          (DuelingDDQNAgent_init wOverConfig 5 7)).batch_size ∧
    (learn Nat.succ
        (store_transition^[wOverConfig.batch_size] (DuelingDDQNAgent_init wOverConfig 5 7))).counter
        = (store_transition^[wOverConfig.batch_size]
          (DuelingDDQNAgent_init wOverConfig 5 7)).counter + 1 :=
  warmup_guard_uses_lifetime_counter wOverConfig 5 7 Nat.succ (by decide)

/- ## Forward-mode differentiation model for C7 -/

/-- Dual number over `ℚ`: a value together with its derivative along one chosen
parameter direction.  Propagating duals through the exact expression the code
builds computes the same derivative that reverse-mode backpropagation deposits
in that parameter's gradient buffer. -/
structure Dual where
  va : ℚ
  da : ℚ

instance : Add Dual := ⟨fun x y => ⟨x.va + y.va, x.da + y.da⟩⟩

instance : Sub Dual := ⟨fun x y => ⟨x.va - y.va, x.da - y.da⟩⟩

instance : Mul Dual := ⟨fun x y => ⟨x.va * y.va, x.va * y.da + x.da * y.va⟩⟩

/-- A quantity with no dependence on the seeded parameter. -/
def Dual.const (c : ℚ) : Dual := ⟨c, 0⟩

/-- Effect of `.detach()` on the derivative computation: same value, derivative
severed. -/
def Dual.detach (x : Dual) : Dual := ⟨x.va, 0⟩

theorem Dual.add_def (x y : Dual) : x + y = ⟨x.va + y.va, x.da + y.da⟩ := rfl

theorem Dual.sub_def (x y : Dual) : x - y = ⟨x.va - y.va, x.da - y.da⟩ := rfl

theorem Dual.mul_def (x y : Dual) : x * y = ⟨x.va * y.va, x.va * y.da + x.da * y.va⟩ := rfl

/-- Mean of a list of duals: `(Σ x) / n`, componentwise. -/
def dualMean (l : List Dual) : Dual :=
  ⟨listMean (l.map Dual.va), listMean (l.map Dual.da)⟩

/-- Combined Q-row over duals, same expression as `rowCombine`. -/
def dualRowCombine (v : Dual) (a : List Dual) : List Dual :=
  a.map (fun x => v + (x - dualMean a))

/-- torch.argmax inspects values only and returns an integer index tensor,
which carries no derivative. -/
def dualArgmaxIdx (l : List Dual) : ℕ := argmaxIdx (l.map Dual.va)

/-- A dueling network oracle with derivative information: seeding `da = 1` on
an output component models differentiation along a parameter that this
component depends on with unit sensitivity. -/
structure DNet where
  val : ℕ → Dual
  adv : ℕ → List Dual

def dualQMatrix (net : DNet) (xs : List ℕ) : List (List Dual) :=
  List.zipWith dualRowCombine (xs.map net.val) (xs.map net.adv)

def dualMaxActions (q1 : DNet) (ns : List ℕ) : List ℕ :=
  (dualQMatrix q1 ns).map dualArgmaxIdx

def dualZeroRows (m : List (List Dual)) (dones : List Bool) : List (List Dual) :=
  List.zipWith (fun row d => if d then List.replicate row.length (Dual.const 0) else row)
    m dones

def dualIndexRows (m : List (List Dual)) (idx : List ℕ) : List Dual :=
  List.zipWith (fun row a => row.getD a (Dual.const 0)) m idx

/-- Lines 126-129 of `agent.py` over duals: rewards and `gamma` are constants
of the differentiation; the target rows and the online prediction carry
whatever derivative the seeded network outputs carry. -/
def dualBootstrapTargets (q1 q2 : DNet) (gamma : ℚ) (rewards : List ℚ)
    (ns : List ℕ) (dones : List Bool) : List Dual :=
  List.zipWith (fun r x => Dual.const r + Dual.const gamma * x) rewards
    (dualIndexRows (dualZeroRows (dualQMatrix q2 ns) dones) (dualMaxActions q1 ns))

def dualQPred (q1 : DNet) (states actions : List ℕ) : List Dual :=
  dualIndexRows (dualQMatrix q1 states) actions

/-- Mean squared error with mean reduction, `torch.nn.MSELoss`. -/
def dualMSE (a b : List Dual) : Dual :=
  dualMean (List.zipWith (fun x y => (x - y) * (x - y)) a b)

/-- The loss exactly as line 131 builds it:
`self.q1.loss(q_target, q_pred)` with the bootstrapped target NOT detached. -/
def dualLearnLoss (q1 q2 : DNet) (gamma : ℚ) (states actions : List ℕ)
    (rewards : List ℚ) (ns : List ℕ) (dones : List Bool) : Dual :=
  dualMSE (dualBootstrapTargets q1 q2 gamma rewards ns dones) (dualQPred q1 states actions)

/-- The loss the spec mandates: the bootstrapped target treated as a constant
of the differentiation (detached). -/
def dualLearnLossDetached (q1 q2 : DNet) (gamma : ℚ) (states actions : List ℕ)
    (rewards : List ℚ) (ns : List ℕ) (dones : List Bool) : Dual :=
  dualMSE ((dualBootstrapTargets q1 q2 gamma rewards ns dones).map Dual.detach)
    (dualQPred q1 states actions)

/- ## Helper lemmas for C7 -/

theorem of_mem_zipWith {α β γ : Type} {f : α → β → γ} :
    ∀ {as : List α} {bs : List β} {x : γ}, x ∈ List.zipWith f as bs →
      ∃ a ∈ as, ∃ b ∈ bs, x = f a b
  | [], _, x, h => by simp at h
  | _ :: _, [], x, h => by simp at h
  | a :: as, b :: bs, x, h => by
    rw [List.zipWith_cons_cons, List.mem_cons] at h
    rcases h with h | h
    · exact ⟨a, List.mem_cons_self a as, b, List.mem_cons_self b bs, h⟩
    · rcases of_mem_zipWith h with ⟨a1, ha1, b1, hb1, hx⟩
      exact ⟨a1, List.mem_cons_of_mem a ha1, b1, List.mem_cons_of_mem b hb1, hx⟩

theorem getD_da_zero : ∀ (l : List Dual) (i : ℕ), (∀ e ∈ l, e.da = 0) →
      (l.getD i (Dual.const 0)).da = 0
  | [], i, _ => by cases i <;> rfl
  | x :: t, 0, h => h x (List.mem_cons_self x t)
  | x :: t, (i + 1), h =>
      getD_da_zero t i (fun e he => h e (List.mem_cons_of_mem x he))

theorem dualMean_da_zero (l : List Dual) (h : ∀ e ∈ l, e.da = 0) :
    (dualMean l).da = 0 := by
  show listMean (l.map Dual.da) = 0
  unfold listMean
  have hs : (l.map Dual.da).sum = 0 := by
    apply List.sum_eq_zero
    intro y hy
    rcases List.mem_map.mp hy with ⟨e, he, rfl⟩
    exact h e he
  rw [hs, zero_div]

theorem dualRowCombine_da_zero (v : Dual) (a : List Dual)
    (hv : v.da = 0) (ha : ∀ e ∈ a, e.da = 0) :
    ∀ e ∈ dualRowCombine v a, e.da = 0 := by
  intro e he
  rcases List.mem_map.mp he with ⟨x, hx, rfl⟩
  show (v + (x - dualMean a)).da = 0
  rw [Dual.add_def, Dual.sub_def]
  show v.da + (x.da - (dualMean a).da) = 0
  rw [hv, ha x hx, dualMean_da_zero a ha]
  ring

theorem dualBootstrapTargets_da_zero (q1 q2 : DNet) (gamma : ℚ) (rewards : List ℚ)
    (ns : List ℕ) (dones : List Bool)
    (htv : ∀ t, (q2.val t).da = 0) (hta : ∀ t, ∀ x ∈ q2.adv t, x.da = 0) :
    ∀ e ∈ dualBootstrapTargets q1 q2 gamma rewards ns dones, e.da = 0 := by
  intro e he
  rcases of_mem_zipWith he with ⟨r, _, y, hy, rfl⟩
  rcases of_mem_zipWith hy with ⟨row, hrow, a, _, rfl⟩
  have hrowz : ∀ z ∈ row, z.da = 0 := by
    rcases of_mem_zipWith hrow with ⟨qrow, hqrow, d, _, rfl⟩
    rcases of_mem_zipWith hqrow with ⟨v, hv, adv, hadv, rfl⟩
    rcases List.mem_map.mp hv with ⟨t1, _, rfl⟩
    rcases List.mem_map.mp hadv with ⟨t2, _, rfl⟩
    cases d with
    | false =>
      simpa using dualRowCombine_da_zero (q2.val t1) (q2.adv t2) (htv t1) (hta t2)
    | true =>
      intro z hz
      simp only [if_true] at hz
      rcases List.eq_of_mem_replicate hz with rfl
      rfl
  show (Dual.const r + Dual.const gamma * row.getD a (Dual.const 0)).da = 0
  rw [Dual.add_def, Dual.mul_def]
  show (Dual.const r).da
      + ((Dual.const gamma).va * (row.getD a (Dual.const 0)).da
        + (Dual.const gamma).da * (row.getD a (Dual.const 0)).va) = 0
  rw [getD_da_zero row a hrowz]
  show (0 : ℚ) + (gamma * 0 + 0 * (row.getD a (Dual.const 0)).va) = 0
  ring

theorem Dual.detach_eq_self (x : Dual) (h : x.da = 0) : x.detach = x := by
  cases x with
  | mk a b =>
    simp only [Dual.detach] at h ⊢
    rw [show b = 0 from h]

/- ## C7 -/

/-- Online network carrying no derivative along the seeded direction. -/
def cOnline : DNet := ⟨fun _ => Dual.const 1, fun _ => [Dual.const 0]⟩

/-- Target network whose value head depends on the seeded parameter with unit
sensitivity (derivative 1). -/
def cTarget : DNet := ⟨fun _ => ⟨2, 1⟩, fun _ => [Dual.const 0]⟩

/-- C7 counterexample: `learn` builds the loss at line 131 from the live target
expression — there is no `.detach()` and no `no_grad` anywhere in lines
122-131 — so the loss is differentiably sensitive to the target network.
Seeding a unit derivative on a target-network parameter (value head) and zero
on everything else, the coded loss has derivative 2 on a concrete one-sample
batch, whereas treating the bootstrapped target as a constant (the detached
loss) gives derivative 0: the backward pass as coded computes and deposits a
nonzero gradient in the target network's parameters, so the target is not
treated as a constant and backpropagation does not touch the online network
only. -/
theorem loss_differentiates_target_path_counterexample :
    (dualLearnLoss cOnline cTarget 1 [0] [0] [0] [1] [false]).da = 2 ∧
    (dualLearnLossDetached cOnline cTarget 1 [0] [0] [0] [1] [false]).da = 0 ∧
    (dualLearnLoss cOnline cTarget 1 [0] [0] [0] [1] [false]).da ≠ 0 := by
  refine ⟨?_, ?_, ?_⟩ <;>
    norm_num [dualLearnLoss, dualLearnLossDetached, dualMSE, dualMean,
      dualBootstrapTargets, dualQPred, dualIndexRows, dualZeroRows, dualQMatrix,
      dualMaxActions, dualArgmaxIdx, dualRowCombine, cOnline, cTarget,
      Dual.detach, Dual.const, Dual.add_def, Dual.sub_def, Dual.mul_def,
      listMean, argmaxIdx, maxVal, List.findIdx_cons, List.getD]

/-- C7 amended: the missing detach changes nothing observable for training.
Part one: along any differentiation direction the target network does not
depend on — in particular any online parameter, the two modules being disjoint
— the coded loss and the spec's constant-target (detached) loss are equal as
dual numbers, so the gradient delivered to the online parameters is exactly the
spec's; the online evaluation of `next_states` contributes nothing because
argmax returns bare indices.  Part two: a learning step never hands the target
parameters to the optimizer — they are either left unchanged or hard-copied
from the online parameters. -/
theorem online_gradient_matches_detached_loss (q1 q2 : DNet) (gamma : ℚ)
    (states actions : List ℕ) (rewards : List ℚ) (ns : List ℕ) (dones : List Bool)
    (htv : ∀ t, (q2.val t).da = 0) (hta : ∀ t, ∀ x ∈ q2.adv t, x.da = 0)
    (opt : P → P) (s : AgentState P) :
    dualLearnLoss q1 q2 gamma states actions rewards ns dones
      = dualLearnLossDetached q1 q2 gamma states actions rewards ns dones ∧
    ((learn opt s).q2 = s.q2 ∨ (learn opt s).q2 = s.q1) := by
  constructor
  · unfold dualLearnLoss dualLearnLossDetached
    have hz := dualBootstrapTargets_da_zero q1 q2 gamma rewards ns dones htv hta
    have hmap : (dualBootstrapTargets q1 q2 gamma rewards ns dones).map Dual.detach
        = dualBootstrapTargets q1 q2 gamma rewards ns dones := by
      have h1 : (dualBootstrapTargets q1 q2 gamma rewards ns dones).map Dual.detach
          = (dualBootstrapTargets q1 q2 gamma rewards ns dones).map id :=
        List.map_congr_left (fun x hx => Dual.detach_eq_self x (hz x hx))
      rw [h1, List.map_id]
    rw [hmap]
  · by_cases hg : s.mem_counter < s.batch_size
    · left
      rw [learn_guard_stop opt s hg]
    · rw [learn_fields opt s hg]
      show (if s.counter % s.replace_target_count = 0 then s.q1 else s.q2) = s.q2 ∨
        (if s.counter % s.replace_target_count = 0 then s.q1 else s.q2) = s.q1
      by_cases hc : s.counter % s.replace_target_count = 0
      · right
        rw [if_pos hc]
      · left
        rw [if_neg hc]

/-- Target network with zero derivative everywhere along the seeded direction,
as when differentiating along an online parameter. -/
def cTargetZero : DNet := ⟨fun _ => Dual.const 2, fun _ => [Dual.const 0]⟩

/-- C7 amended witness: concrete batch and agent state; the coded and detached
losses coincide when the seed direction is an online parameter, and the target
parameters of `wSync` after a learning step are its old target (or online)
parameters, never an optimizer output. -/
theorem online_gradient_matches_detached_loss_witness :
    (dualLearnLoss cOnline cTargetZero 1 [0] [0] [0] [1] [false]
        = dualLearnLossDetached cOnline cTargetZero 1 [0] [0] [0] [1] [false]) ∧
    ((learn Nat.succ wSync).q2 = wSync.q2 ∨ (learn Nat.succ wSync).q2 = wSync.q1) :=
  online_gradient_matches_detached_loss cOnline cTargetZero 1 [0] [0] [0] [1] [false]
    (fun _ => rfl) (fun _ x hx => by rw [List.mem_singleton.mp hx]; rfl)
    Nat.succ wSync

end DuelingDDQN
